import Mathlib

/-!
Verification of the kernel-module helper script for a debugger
(vmlinux-gdb.py): a shallow embedding of its list-traversal helpers and
command handlers, with theorems about their behaviour.

Modelling conventions:
  * Remote-kernel memory is an oracle `mem : Nat -> Nat` mapping the address
    of a list node to the value of its embedded next pointer
    (struct list_head has next at byte offset 0, so reading field next of
    the node at address a is exactly reading memory at a).
  * Debugger values of C type unsigned long are natural numbers reduced
    modulo 2^64.
  * A structure type is represented by its layout: a map from member name
    to byte offset; the debugger call gdb.lookup_type is an oracle from the
    type name to such a layout.
  * A generator is modelled with explicit fuel, returning none when the
    fuel runs out before the traversal stops.
-/

namespace Vmlinux

/-- The modulus of unsigned long arithmetic on a 64-bit target. -/
def U64 : Nat := 2 ^ 64

/-- Wraparound subtraction of unsigned long values. -/
def u64sub (a b : Nat) : Nat := (a % U64 + (U64 - b % U64)) % U64

/-- Embedding of the function offset(gdb_type, member): cast the null
pointer to a pointer to the structure, take the address of the member
(that is, 0 plus the member's byte offset, as an unsigned long). -/
def offset (layout : String → Nat) (member : String) : Nat := layout member % U64

/-- Embedding of list_entry(list_head_ptr, gdb_type, off): cast the link
pointer to unsigned long, subtract off, cast back to a pointer. -/
def list_entry (p off : Nat) : Nat := u64sub p off

/-- Loop of listhead_iter: while pos differs from the head's own address,
yield list_entry(pos, type, off) and move pos to pos's next field. -/
def listIterAux (mem : Nat → Nat) (headAddr off : Nat) : Nat → Nat → Option (List Nat)
  | 0, pos => if pos = headAddr then some [] else none
  | Nat.succ n, pos =>
    if pos = headAddr then some []
    else (listIterAux mem headAddr off n (mem pos)).map (fun l => list_entry pos off :: l)

/-- Embedding of listhead_iter(list_head, typename, member): look up the
type, compute the member offset, start at the head's next field. -/
def listhead_iter (mem : Nat → Nat) (lookupType : String → String → Nat)
    (typename member : String) (headAddr fuel : Nat) : Option (List Nat) :=
  listIterAux mem headAddr (offset (lookupType typename) member) fuel (mem headAddr)

/-- Following the next pointer k times from a position. -/
def follow (mem : Nat → Nat) : Nat → Nat → Nat
  | pos, 0 => pos
  | pos, Nat.succ k => follow mem (mem pos) k

/-- Spec-side definition (from the claim's words, not from the code): the
node addresses reached by starting at the head's next pointer and
repeatedly following next, in traversal order, stopping when the pointer
equals the head's own address. -/
def specNodeChainAux (mem : Nat → Nat) (headAddr : Nat) : Nat → Nat → Option (List Nat)
  | 0, pos => if pos = headAddr then some [] else none
  | Nat.succ n, pos =>
    if pos = headAddr then some []
    else (specNodeChainAux mem headAddr n (mem pos)).map (fun l => pos :: l)

/-- Spec-side node chain started at the head's next field. -/
def specNodeChain (mem : Nat → Nat) (headAddr fuel : Nat) : Option (List Nat) :=
  specNodeChainAux mem headAddr fuel (mem headAddr)

lemma listIterAux_eq_map (mem : Nat → Nat) (headAddr off : Nat) :
    ∀ fuel pos, listIterAux mem headAddr off fuel pos =
      (specNodeChainAux mem headAddr fuel pos).map (List.map (fun p => list_entry p off)) := by
  intro fuel
  induction fuel with
  | zero =>
    intro pos
    unfold listIterAux specNodeChainAux
    by_cases h : pos = headAddr
    · rw [if_pos h]
      rfl
    · rw [if_neg h]
      rfl
  | succ n ih =>
    intro pos
    unfold listIterAux specNodeChainAux
    by_cases h : pos = headAddr
    · rw [if_pos h, if_pos h]
      rfl
    · rw [if_neg h, if_neg h, ih (mem pos)]
      cases specNodeChainAux mem headAddr n (mem pos) <;> rfl

lemma specNodeChainAux_not_mem (mem : Nat → Nat) (headAddr : Nat) :
    ∀ fuel pos l, specNodeChainAux mem headAddr fuel pos = some l → headAddr ∉ l := by
  intro fuel
  induction fuel with
  | zero =>
    intro pos l h
    unfold specNodeChainAux at h
    by_cases hp : pos = headAddr
    · rw [if_pos hp] at h
      injection h with h2
      rw [← h2]
      exact List.not_mem_nil _
    · rw [if_neg hp] at h
      exact Option.noConfusion h
  | succ n ih =>
    intro pos l h
    unfold specNodeChainAux at h
    by_cases hp : pos = headAddr
    · rw [if_pos hp] at h
      injection h with h2
      rw [← h2]
      exact List.not_mem_nil _
    · rw [if_neg hp] at h
      obtain ⟨l2, hl2, hEq⟩ := Option.map_eq_some'.mp h
      rw [← hEq]
      intro hmem
      rcases List.mem_cons.mp hmem with h1 | h2
      · exact hp h1.symm
      · exact ih (mem pos) l2 hl2 h2

lemma u64sub_of_le (a b : Nat) (ha : a < U64) (hb : b % U64 ≤ a) :
    u64sub a b = a - b % U64 := by
  have h64 : U64 = 18446744073709551616 := by norm_num [U64]
  rw [h64] at ha hb
  unfold u64sub
  rw [h64]
  omega

/-- C2: for a structure layout and member, with off the value computed by
offset, list_entry recovers the containing element: its integer value is
the integer value of the link pointer minus off. -/
theorem C2_list_entry_recovers_container (layout : String → Nat) (member : String) (p : Nat)
    (hp : p < U64) (hoff : offset layout member ≤ p) :
    list_entry p (offset layout member) = p - offset layout member := by
  have h64 : U64 = 18446744073709551616 := by norm_num [U64]
  unfold offset at hoff ⊢
  unfold list_entry u64sub
  rw [h64] at hp hoff ⊢
  omega

theorem C2_witness :
    offset (fun _ => 8) "list" ≤ 1000 ∧
    list_entry 1000 (offset (fun _ => 8) "list") = 1000 - offset (fun _ => 8) "list" :=
  ⟨by decide, C2_list_entry_recovers_container (fun _ => 8) "list" 1000 (by decide) (by decide)⟩

/-- C1: whenever the spec-side traversal (follow next from the head's next
field, stop on reaching the head's own address) yields the node list l,
listhead_iter yields exactly the containing elements of those nodes, in
that order, and the head node is never among the yielded nodes. -/
theorem C1_listhead_iter_refines_spec (mem : Nat → Nat) (lookupType : String → String → Nat)
    (typename member : String) (headAddr fuel : Nat) (l : List Nat)
    (h : specNodeChain mem headAddr fuel = some l) :
    listhead_iter mem lookupType typename member headAddr fuel =
      some (l.map (fun p => list_entry p (offset (lookupType typename) member))) ∧
    headAddr ∉ l := by
  constructor
  · unfold listhead_iter
    rw [listIterAux_eq_map]
    unfold specNodeChain at h
    rw [h]
    rfl
  · exact specNodeChainAux_not_mem mem headAddr fuel (mem headAddr) l h

theorem C1_witness :
    specNodeChain (fun a => if a = 100 then 200 else if a = 200 then 100 else 0) 100 1 =
      some [200] ∧
    (listhead_iter (fun a => if a = 100 then 200 else if a = 200 then 100 else 0)
        (fun _ _ => 16) "struct module" "list" 100 1 = some [184] ∧ 100 ∉ [200]) := by
  refine ⟨by decide, ?_⟩
  have h := C1_listhead_iter_refines_spec
    (fun a => if a = 100 then 200 else if a = 200 then 100 else 0)
    (fun _ _ => 16) "struct module" "list" 100 1 [200] (by decide)
  refine ⟨?_, h.2⟩
  rw [h.1]
  decide

lemma follow_listIterAux_some (mem : Nat → Nat) (headAddr off : Nat) :
    ∀ k pos, follow mem pos k = headAddr →
      ∃ l, listIterAux mem headAddr off k pos = some l := by
  intro k
  induction k with
  | zero =>
    intro pos h
    unfold follow at h
    exact ⟨[], by unfold listIterAux; rw [if_pos h]⟩
  | succ n ih =>
    intro pos h
    by_cases hp : pos = headAddr
    · exact ⟨[], by unfold listIterAux; rw [if_pos hp]⟩
    · unfold follow at h
      obtain ⟨l, hl⟩ := ih (mem pos) h
      exact ⟨list_entry pos off :: l, by unfold listIterAux; rw [if_neg hp, hl]; rfl⟩

/-- C4: under the circularity precondition (following next from the head
returns to the head's own address after finitely many steps), the traversal
of listhead_iter terminates: with that many steps as fuel it completes and
yields a finite list. -/
theorem C4_listhead_iter_terminates (mem : Nat → Nat) (lookupType : String → String → Nat)
    (typename member : String) (headAddr k : Nat)
    (hcirc : follow mem (mem headAddr) k = headAddr) :
    ∃ l, listhead_iter mem lookupType typename member headAddr k = some l := by
  unfold listhead_iter
  exact follow_listIterAux_some mem headAddr _ k (mem headAddr) hcirc

theorem C4_witness :
    follow (fun a => if a = 100 then 200 else if a = 200 then 100 else 0)
      ((fun a => if a = 100 then 200 else if a = 200 then 100 else 0) 100) 1 = 100 ∧
    ∃ l, listhead_iter (fun a => if a = 100 then 200 else if a = 200 then 100 else 0)
      (fun _ _ => 16) "struct module" "list" 100 1 = some l :=
  ⟨by decide, C4_listhead_iter_terminates
    (fun a => if a = 100 then 200 else if a = 200 then 100 else 0)
    (fun _ _ => 16) "struct module" "list" 100 1 (by decide)⟩

/-- Substring test on character lists: the pattern occurs somewhere in s. -/
def hasSub : List Char → List Char → Bool
  | [], p => p.isEmpty
  | c :: cs, p => p.isPrefixOf (c :: cs) || hasSub cs p

/-- Substring test on strings. -/
def strHasSub (s pat : String) : Bool := hasSub s.data pat.data

lemma isPrefixOf_self_append (a r : List Char) : a.isPrefixOf (a ++ r) = true :=
  List.isPrefixOf_iff_prefix.mpr (List.prefix_append a r)

lemma hasSub_of_append : ∀ pre pat post : List Char, hasSub (pre ++ (pat ++ post)) pat = true := by
  intro pre
  induction pre with
  | nil =>
    intro pat post
    cases pat with
    | nil =>
      cases post with
      | nil => rfl
      | cons c cs => simp [hasSub, List.isPrefixOf_nil_left]
    | cons q qs =>
      show hasSub ((q :: qs) ++ post) (q :: qs) = true
      simp only [hasSub, List.append_eq, List.cons_append]
      have h1 : (q :: qs).isPrefixOf (q :: (qs ++ post)) = true :=
        isPrefixOf_self_append (q :: qs) post
      rw [h1, Bool.true_or]
  | cons c cs ih =>
    intro pat post
    show hasSub (c :: (cs ++ (pat ++ post))) pat = true
    simp only [hasSub]
    rw [ih pat post, Bool.or_true]

/-- An output action of a command handler: a printed line or a debugger
command passed to gdb.execute. -/
inductive Effect where
  | msg : String → Effect
  | gdbCmd : String → Effect
deriving DecidableEq

/-- The debugger commands a handler issued, in order. -/
def issuedCmds (effects : List Effect) : List String :=
  effects.filterMap fun e =>
    match e with
    | Effect.gdbCmd c => some c
    | Effect.msg _ => none

/-- Lookup in a Python dict built from an association list: the latest
binding of a key wins. -/
def dictGet : List (String × String) → String → Option String
  | [], _ => none
  | (k, v) :: rest, key =>
    match dictGet rest key with
    | some v2 => some v2
    | none => if k = key then some v else none

/-- A module as the handlers see it: its name and the section attribute
pairs (section name, address string) read from sect_attrs, in index order. -/
structure ModuleInfo where
  name : String
  sections : List (String × String)
deriving DecidableEq

/-- The shell command string findBuildPath hands to os.popen. -/
def findCmd (m : String) : String :=
  "find . ! -path \x27./lib/modules/*\x27 -name " ++ m ++ ".ko"

/-- Python str.strip(): remove leading and trailing whitespace. -/
def pyStrip (s : String) : String :=
  ⟨((s.data.dropWhile Char.isWhitespace).reverse.dropWhile Char.isWhitespace).reverse⟩

/-- Embedding of findBuildPath(m): the os.popen search result is an oracle
giving either an exception or the output lines of the search; the function
takes the first line (the empty string when there is none) and strips
surrounding whitespace; on an exception it returns the empty string. -/
def findBuildPath (popenResult : Except Unit (List String)) : String :=
  match popenResult with
  | Except.error _ => ""
  | Except.ok lines => pyStrip (lines.headD "")

/-- The error text printed when the modules variable cannot be read. -/
def attachErr : String :=
  "A running kernel must be attached in order to get section information"

/-- The error text printed when no build artifact is found for a module. -/
def notFoundMsg (name : String) : String := "Could not find module file for " ++ name

/-- The error text printed when gdb.execute of an add-symbol-file fails. -/
def loadErrMsg (filename : String) : String :=
  "Error: unable to load symbols for " ++ filename ++ ".\n"

/-- Append the clause for each of the fixed section names that is present
in the section dictionary. -/
def addSectClausesAux (adict : List (String × String)) : List String → String → String
  | [], cmd => cmd
  | sec :: rest, cmd =>
    addSectClausesAux adict rest
      (match dictGet adict sec with
       | some addr => cmd ++ " -s " ++ sec ++ " " ++ addr
       | none => cmd)

/-- The loop over (.bss, .data, .init.text) shared by add-kernel-modules,
modprobe and add-this-module. -/
def addSectClauses (cmd : String) (adict : List (String × String)) : String :=
  addSectClausesAux adict [".bss", ".data", ".init.text"] cmd

/-- The loop of add-kernel-modules-network over every discovered section
of a module (sects.iteritems()). -/
def fastSectClauses (cmd : String) (sects : List (String × String)) : String :=
  sects.foldl (fun c p => c ++ " -s " ++ p.1 ++ " " ++ p.2) cmd

namespace LsmodCmd

/-- Embedding of LsmodCmd.invoke: readVarOk is whether reading the
variable modules from the selected frame succeeds; mods abstracts the
traversal of the circular module list as the finite list of modules it
visits; the handler prints each module's name. -/
def invoke (readVarOk : Bool) (mods : List ModuleInfo) : List Effect :=
  if readVarOk = false then [Effect.msg attachErr]
  else mods.map fun m => Effect.msg m.name

end LsmodCmd

namespace AddAllModsCmd

/-- One iteration of the module loop of AddAllModsCmd.invoke: find the
build artifact, skip with a message when the file does not exist, skip
silently when the section dictionary has no .text entry, otherwise issue
the add-symbol-file command, printing an error when it fails. -/
def processModule (findRes : String → Except Unit (List String)) (isFile : String → Bool)
    (execFails : String → Bool) (m : ModuleInfo) : List Effect :=
  let filename := findBuildPath (findRes m.name)
  if isFile filename = false then [Effect.msg (notFoundMsg m.name)]
  else
    match dictGet m.sections ".text" with
    | none => []
    | some textAddr =>
      let cmd := addSectClauses ("add-symbol-file " ++ filename ++ " " ++ textAddr) m.sections
      Effect.gdbCmd cmd :: (if execFails cmd then [Effect.msg (loadErrMsg filename)] else [])

/-- Embedding of AddAllModsCmd.invoke (the add-kernel-modules command). -/
def invoke (findRes : String → Except Unit (List String)) (isFile : String → Bool)
    (execFails : String → Bool) (readVarOk : Bool) (mods : List ModuleInfo) : List Effect :=
  if readVarOk = false then [Effect.msg attachErr]
  else (mods.map (processModule findRes isFile execFails)).flatten

end AddAllModsCmd

namespace AddAllModsCmdFast

/-- One iteration of the database loop of AddAllModsCmdFast.invoke: skip
when no build artifact was found (empty path) or the discovered sections
have no .text entry; otherwise print and issue the command built from the
.text address and a clause for every discovered section. -/
def processEntry (findRes : String → Except Unit (List String)) (execFails : String → Bool)
    (entry : String × List (String × String)) : List Effect :=
  let filename := findBuildPath (findRes entry.1)
  if filename = "" then []
  else
    match dictGet entry.2 ".text" with
    | none => []
    | some textAddr =>
      let cmd := fastSectClauses ("add-symbol-file " ++ filename ++ " " ++ textAddr) entry.2
      Effect.msg cmd :: Effect.gdbCmd cmd ::
        (if execFails cmd then [Effect.msg (loadErrMsg filename)] else [])

/-- Embedding of AddAllModsCmdFast.invoke (add-kernel-modules-network).
The ssh harvest and regex parse of /sys/module section files are
abstracted by the database argument: per module, the discovered
(section, address) pairs. -/
def invoke (target : String) (findRes : String → Except Unit (List String))
    (execFails : String → Bool)
    (database : List (String × List (String × String))) : List Effect :=
  if target = "" then
    [Effect.msg "This command gets the module data  from the target over an ssh connection.",
     Effect.msg "EXAMPLE add-kernel-modules-network root@10.1.2.3"]
  else
    Effect.gdbCmd "monitor go" ::
      ((database.map (processEntry findRes execFails)).flatten ++ [Effect.gdbCmd "monitor halt"])

end AddAllModsCmdFast

namespace AddKernModCmd

/-- The module loop of AddKernModCmd.invoke (modprobe). The Bool of the
result is whether an uncaught exception escaped: the .text lookup on the
matched module's section dictionary is unguarded, so a matched module
without a .text section raises a KeyError. -/
def loop (modname filename : String) (execFails : String → Bool) :
    List ModuleInfo → List Effect × Bool
  | [] => ([Effect.msg ("Module " ++ modname ++ " is not currently loaded by the kernel.")],
      false)
  | m :: rest =>
    if m.name = modname then
      match dictGet m.sections ".text" with
      | none => ([], true)
      | some textAddr =>
        let cmd := addSectClauses ("add-symbol-file " ++ filename ++ " " ++ textAddr) m.sections
        (Effect.gdbCmd cmd :: (if execFails cmd then [Effect.msg (loadErrMsg filename)] else []),
          false)
    else loop modname filename execFails rest

/-- Embedding of AddKernModCmd.invoke (the modprobe command). -/
def invoke (modname : String) (findRes : String → Except Unit (List String))
    (isFile : String → Bool) (readVarOk : Bool) (mods : List ModuleInfo)
    (execFails : String → Bool) : List Effect × Bool :=
  if modname = "" then ([Effect.msg "USAGE: modprobe module"], false)
  else
    let filename := findBuildPath (findRes modname)
    if isFile filename = false then ([Effect.msg (notFoundMsg modname)], false)
    else if readVarOk = false then ([Effect.msg attachErr], false)
    else loop modname filename execFails mods

end AddKernModCmd

namespace AddThisModCmd

/-- Embedding of AddThisModCmd.invoke (add-this-module): readVarOk is
whether reading the variable mod from the selected frame succeeds and mod
is the module it denotes. -/
def invoke (name : String) (readVarOk : Bool) (mod : ModuleInfo)
    (findRes : String → Except Unit (List String)) (isFile : String → Bool)
    (execFails : String → Bool) : List Effect :=
  if readVarOk = false then
    [Effect.msg
      "This command should be run while stopped at a breakpoint\njust after load_module() returns in kernel/module.c"]
  else
    let thisModule := mod.name
    let nm := if name = "" then thisModule else name
    if nm ≠ thisModule then []
    else
      let filename := findBuildPath (findRes thisModule)
      if isFile filename = false then [Effect.msg (notFoundMsg thisModule)]
      else
        match dictGet mod.sections ".text" with
        | none => []
        | some textAddr =>
          let cmd := addSectClauses ("add-symbol-file " ++ filename ++ " " ++ textAddr)
            mod.sections
          Effect.gdbCmd cmd ::
            (if execFails cmd then [Effect.msg (loadErrMsg filename)] else [])

end AddThisModCmd

/-- The script's own module-level state: the looked-up unsigned long type
and the architecture detection results set at load time. -/
structure Globals where
  longTypeBits : Nat
  archStr : String
  arch : String
deriving DecidableEq

/-- LsmodCmd.invoke with the script globals threaded through: the handler
body contains no assignment to module-level names. -/
def LsmodCmd.invokeG (g : Globals) (readVarOk : Bool) (mods : List ModuleInfo) :
    Globals × List Effect :=
  (g, LsmodCmd.invoke readVarOk mods)

/-- AddAllModsCmd.invoke with the script globals threaded through. -/
def AddAllModsCmd.invokeG (g : Globals) (findRes : String → Except Unit (List String))
    (isFile : String → Bool) (execFails : String → Bool) (readVarOk : Bool)
    (mods : List ModuleInfo) : Globals × List Effect :=
  (g, AddAllModsCmd.invoke findRes isFile execFails readVarOk mods)

/-- AddAllModsCmdFast.invoke with the script globals threaded through: its
database dict is a local, deleted before return. -/
def AddAllModsCmdFast.invokeG (g : Globals) (target : String)
    (findRes : String → Except Unit (List String)) (execFails : String → Bool)
    (database : List (String × List (String × String))) : Globals × List Effect :=
  (g, AddAllModsCmdFast.invoke target findRes execFails database)

/-- AddKernModCmd.invoke with the script globals threaded through. -/
def AddKernModCmd.invokeG (g : Globals) (modname : String)
    (findRes : String → Except Unit (List String)) (isFile : String → Bool)
    (readVarOk : Bool) (mods : List ModuleInfo) (execFails : String → Bool) :
    Globals × (List Effect × Bool) :=
  (g, AddKernModCmd.invoke modname findRes isFile readVarOk mods execFails)

/-- AddThisModCmd.invoke with the script globals threaded through. -/
def AddThisModCmd.invokeG (g : Globals) (name : String) (readVarOk : Bool)
    (mod : ModuleInfo) (findRes : String → Except Unit (List String))
    (isFile : String → Bool) (execFails : String → Bool) : Globals × List Effect :=
  (g, AddThisModCmd.invoke name readVarOk mod findRes isFile execFails)

/-- Index of the first occurrence of a pattern in a character list. -/
def subIdx : List Char → List Char → Option Nat
  | [], p => if p.isEmpty then some 0 else none
  | c :: cs, p => if p.isPrefixOf (c :: cs) then some 0 else (subIdx cs p).map (· + 1)

/-- Embedding of Python str.find: the index of the first occurrence of
pat in s, or -1 when pat does not occur. -/
def pyFind (s pat : String) : Int :=
  match subIdx s.data pat.data with
  | some i => (i : Int)
  | none => -1

/-- The architecture-detection sequence run at script load time over the
first output line of show architecture: each branch condition is the
Python truthiness of str.find, that is, the found index is nonzero. -/
def archDetect (s : String) : String :=
  if pyFind s "ia64" ≠ 0 then "ia64"
  else if pyFind s "x86-64" ≠ 0 then "x86_64"
  else if pyFind s "i386" ≠ 0 then "ia32"
  else "unknown"

/-- C5: findBuildPath hands the shell a recursive search for name.ko that
excludes ./lib/modules/, returns the first output line with surrounding
whitespace stripped, and returns the empty string when the search yields
no line or an exception occurs. -/
theorem C5_findBuildPath_first_line (m line : String) (restL : List String) :
    findCmd m = "find . ! -path \x27./lib/modules/*\x27 -name " ++ m ++ ".ko" ∧
    findBuildPath (Except.ok (line :: restL)) = pyStrip line ∧
    findBuildPath (Except.ok []) = "" ∧
    findBuildPath (Except.error ()) = "" :=
  ⟨rfl, rfl, rfl, rfl⟩

/-- C6: when reading the modules variable from the selected frame fails,
each of lsmod, add-kernel-modules and modprobe prints exactly the attach
error message and returns: no debugger command and no other effect. -/
theorem C6_attach_error_atomic (findRes : String → Except Unit (List String))
    (isFile : String → Bool) (execFails : String → Bool) (mods : List ModuleInfo)
    (modname : String) (h1 : modname ≠ "")
    (h2 : isFile (findBuildPath (findRes modname)) = true) :
    LsmodCmd.invoke false mods = [Effect.msg attachErr] ∧
    AddAllModsCmd.invoke findRes isFile execFails false mods = [Effect.msg attachErr] ∧
    AddKernModCmd.invoke modname findRes isFile false mods execFails =
      ([Effect.msg attachErr], false) := by
  refine ⟨rfl, rfl, ?_⟩
  simp [AddKernModCmd.invoke, h1, h2]

theorem C6_witness :
    LsmodCmd.invoke false [] = [Effect.msg attachErr] ∧
    AddAllModsCmd.invoke (fun _ => Except.ok ["./foo.ko"]) (fun _ => true) (fun _ => false)
      false [] = [Effect.msg attachErr] ∧
    AddKernModCmd.invoke "foo" (fun _ => Except.ok ["./foo.ko"]) (fun _ => true) false []
      (fun _ => false) = ([Effect.msg attachErr], false) :=
  C6_attach_error_atomic (fun _ => Except.ok ["./foo.ko"]) (fun _ => true) (fun _ => false)
    [] "foo" (by decide) (by decide)

/-- C7: the add-kernel-modules enumeration is per module and never aborts:
processing a list is processing its head followed by the rest; a module
with no build artifact contributes exactly the could-not-find message, and
a module whose add-symbol-file execution fails contributes the attempted
command followed by the load-error message. -/
theorem C7_per_module_errors_continue (findRes : String → Except Unit (List String))
    (isFile : String → Bool) (execFails : String → Bool) (m : ModuleInfo)
    (rest : List ModuleInfo) (textAddr : String)
    (hfile : isFile (findBuildPath (findRes m.name)) = true)
    (htext : dictGet m.sections ".text" = some textAddr)
    (hfail : execFails (addSectClauses
      ("add-symbol-file " ++ findBuildPath (findRes m.name) ++ " " ++ textAddr)
      m.sections) = true) :
    AddAllModsCmd.invoke findRes isFile execFails true (m :: rest) =
      AddAllModsCmd.processModule findRes isFile execFails m ++
        AddAllModsCmd.invoke findRes isFile execFails true rest ∧
    (∀ m2 : ModuleInfo, isFile (findBuildPath (findRes m2.name)) = false →
      AddAllModsCmd.processModule findRes isFile execFails m2 =
        [Effect.msg (notFoundMsg m2.name)]) ∧
    AddAllModsCmd.processModule findRes isFile execFails m =
      [Effect.gdbCmd (addSectClauses
          ("add-symbol-file " ++ findBuildPath (findRes m.name) ++ " " ++ textAddr) m.sections),
        Effect.msg (loadErrMsg (findBuildPath (findRes m.name)))] := by
  refine ⟨rfl, ?_, ?_⟩
  · intro m2 h
    simp [AddAllModsCmd.processModule, h]
  · simp [AddAllModsCmd.processModule, hfile, htext, hfail]

theorem C7_witness :
    AddAllModsCmd.invoke (fun n => if n = "foo" then Except.ok ["./foo.ko"] else Except.ok [])
      (fun s => s == "./foo.ko") (fun _ => true) true
      [⟨"foo", [(".text", "0x1")]⟩, ⟨"bar", []⟩] =
      AddAllModsCmd.processModule
        (fun n => if n = "foo" then Except.ok ["./foo.ko"] else Except.ok [])
        (fun s => s == "./foo.ko") (fun _ => true) ⟨"foo", [(".text", "0x1")]⟩ ++
      AddAllModsCmd.invoke (fun n => if n = "foo" then Except.ok ["./foo.ko"] else Except.ok [])
        (fun s => s == "./foo.ko") (fun _ => true) true [⟨"bar", []⟩] ∧
    AddAllModsCmd.processModule
      (fun n => if n = "foo" then Except.ok ["./foo.ko"] else Except.ok [])
      (fun s => s == "./foo.ko") (fun _ => true) ⟨"bar", []⟩ =
      [Effect.msg (notFoundMsg "bar")] ∧
    AddAllModsCmd.processModule
      (fun n => if n = "foo" then Except.ok ["./foo.ko"] else Except.ok [])
      (fun s => s == "./foo.ko") (fun _ => true) ⟨"foo", [(".text", "0x1")]⟩ =
      [Effect.gdbCmd "add-symbol-file ./foo.ko 0x1",
        Effect.msg "Error: unable to load symbols for ./foo.ko.\n"] := by
  have h := C7_per_module_errors_continue
    (fun n => if n = "foo" then Except.ok ["./foo.ko"] else Except.ok [])
    (fun s => s == "./foo.ko") (fun _ => true) ⟨"foo", [(".text", "0x1")]⟩ [⟨"bar", []⟩]
    "0x1" (by decide) (by decide) (by decide)
  refine ⟨h.1, ?_, ?_⟩
  · rw [h.2.1 ⟨"bar", []⟩ (by decide)]
  · rw [h.2.2]
    decide

/-- C8: no handler mutates script-global state: with the module-level
state threaded through every handler, each returns it unchanged; the data
each one builds is local to the invocation. -/
theorem C8_no_global_mutation (g : Globals) (readVarOk : Bool) (mods : List ModuleInfo)
    (findRes : String → Except Unit (List String)) (isFile : String → Bool)
    (execFails : String → Bool) (target modname name : String) (mod : ModuleInfo)
    (database : List (String × List (String × String))) :
    (LsmodCmd.invokeG g readVarOk mods).1 = g ∧
    (AddAllModsCmd.invokeG g findRes isFile execFails readVarOk mods).1 = g ∧
    (AddAllModsCmdFast.invokeG g target findRes execFails database).1 = g ∧
    (AddKernModCmd.invokeG g modname findRes isFile readVarOk mods execFails).1 = g ∧
    (AddThisModCmd.invokeG g name readVarOk mod findRes isFile execFails).1 = g :=
  ⟨rfl, rfl, rfl, rfl, rfl⟩

/-- C10: the .text lookup in the modprobe command is unguarded: a matched
module whose section dictionary has no .text entry makes the handler raise
an uncaught KeyError (with no message printed), while with a .text entry
no exception escapes; add-kernel-modules and add-this-module test for
.text and skip such a module instead. -/
theorem C10_modprobe_unguarded_text (findRes : String → Except Unit (List String))
    (isFile : String → Bool) (execFails : String → Bool) (m : ModuleInfo) (modname : String)
    (h0 : modname ≠ "") (h1 : m.name = modname)
    (h2 : isFile (findBuildPath (findRes modname)) = true) :
    (dictGet m.sections ".text" = none →
      AddKernModCmd.invoke modname findRes isFile true [m] execFails = ([], true) ∧
      AddAllModsCmd.processModule findRes isFile execFails m = [] ∧
      AddThisModCmd.invoke modname true m findRes isFile execFails = []) ∧
    (∀ textAddr, dictGet m.sections ".text" = some textAddr →
      (AddKernModCmd.invoke modname findRes isFile true [m] execFails).2 = false) := by
  constructor
  · intro ht
    refine ⟨?_, ?_, ?_⟩
    · simp [AddKernModCmd.invoke, AddKernModCmd.loop, h0, h1, h2, ht]
    · simp [AddAllModsCmd.processModule, h1, h2, ht]
    · simp [AddThisModCmd.invoke, h0, h1, h2, ht]
  · intro textAddr ht
    simp [AddKernModCmd.invoke, AddKernModCmd.loop, h0, h1, h2, ht]

theorem C10_witness :
    AddKernModCmd.invoke "foo" (fun _ => Except.ok ["./foo.ko"]) (fun _ => true) true
      [⟨"foo", [(".data", "0x2")]⟩] (fun _ => false) = ([], true) ∧
    AddAllModsCmd.processModule (fun _ => Except.ok ["./foo.ko"]) (fun _ => true)
      (fun _ => false) ⟨"foo", [(".data", "0x2")]⟩ = [] ∧
    AddThisModCmd.invoke "foo" true ⟨"foo", [(".data", "0x2")]⟩
      (fun _ => Except.ok ["./foo.ko"]) (fun _ => true) (fun _ => false) = [] := by
  have h := C10_modprobe_unguarded_text (fun _ => Except.ok ["./foo.ko"]) (fun _ => true)
    (fun _ => false) ⟨"foo", [(".data", "0x2")]⟩ "foo" (by decide) (by decide) (by decide)
  exact h.1 (by decide)

lemma subIdx_eq_zero_iff (s p : List Char) : subIdx s p = some 0 ↔ p.isPrefixOf s = true := by
  cases s with
  | nil =>
    cases p with
    | nil => simp [subIdx, List.isPrefixOf]
    | cons c cs => simp [subIdx, List.isPrefixOf]
  | cons c cs =>
    by_cases hp : p.isPrefixOf (c :: cs) = true
    · simp [subIdx, hp]
    · simp only [subIdx]
      rw [if_neg hp]
      constructor
      · intro h
        obtain ⟨a, _, ha⟩ := Option.map_eq_some'.mp h
        exact absurd ha (by omega)
      · intro h
        exact absurd h hp

lemma pyFind_eq_zero_iff (s pat : String) :
    pyFind s pat = 0 ↔ pat.data.isPrefixOf s.data = true := by
  unfold pyFind
  cases h : subIdx s.data pat.data with
  | none =>
    constructor
    · intro h2
      exact absurd h2 (by decide)
    · intro h2
      have h3 := (subIdx_eq_zero_iff s.data pat.data).mpr h2
      rw [h] at h3
      exact Option.noConfusion h3
  | some i =>
    constructor
    · intro h2
      have hi0 : (i : Int) = 0 := h2
      have hi : i = 0 := by exact_mod_cast hi0
      rw [hi] at h
      exact (subIdx_eq_zero_iff s.data pat.data).mp h
    · intro h2
      have h3 := (subIdx_eq_zero_iff s.data pat.data).mpr h2
      rw [h] at h3
      injection h3 with h4
      rw [h4]
      rfl

/-- C9: in the load-time architecture detection, arch is set to ia64
whenever "ia64" does not occur at index 0 of the string (str.find returns
-1 or a positive index there, both truthy); strings containing "x86-64" or
"i386" that do not start with "ia64" are classified "ia64"; the branches
assigning "x86_64", "ia32" and "unknown" are reachable only for strings
beginning with "ia64". -/
theorem C9_arch_detection_truthiness (s : String) :
    (pyFind s "ia64" ≠ 0 → archDetect s = "ia64") ∧
    ((strHasSub s "x86-64" = true ∨ strHasSub s "i386" = true) →
      ("ia64").data.isPrefixOf s.data = false → archDetect s = "ia64") ∧
    (archDetect s = "x86_64" ∨ archDetect s = "ia32" ∨ archDetect s = "unknown" →
      ("ia64").data.isPrefixOf s.data = true) := by
  refine ⟨?_, ?_, ?_⟩
  · intro h
    unfold archDetect
    rw [if_pos h]
  · intro _ h2
    have h3 : pyFind s "ia64" ≠ 0 := by
      intro h0
      have h4 := (pyFind_eq_zero_iff s "ia64").mp h0
      rw [h2] at h4
      exact Bool.noConfusion h4
    unfold archDetect
    rw [if_pos h3]
  · intro h
    by_cases h3 : pyFind s "ia64" ≠ 0
    · unfold archDetect at h
      rw [if_pos h3] at h
      rcases h with h | h | h <;> exact absurd h (by decide)
    · exact (pyFind_eq_zero_iff s "ia64").mp (not_not.mp h3)

theorem C9_witness :
    strHasSub "i386:x86-64" "x86-64" = true ∧
    ("ia64").data.isPrefixOf ("i386:x86-64").data = false ∧
    archDetect "i386:x86-64" = "ia64" :=
  ⟨by decide, by decide,
    (C9_arch_detection_truthiness "i386:x86-64").2.1 (Or.inl (by decide)) (by decide)⟩

lemma fastSectClauses_data (sects : List (String × String)) :
    ∀ init : String, ∃ r, (fastSectClauses init sects).data = init.data ++ r := by
  induction sects with
  | nil =>
    intro init
    exact ⟨[], by simp [fastSectClauses]⟩
  | cons p ps ih =>
    intro init
    obtain ⟨r, hr⟩ := ih (init ++ " -s " ++ p.1 ++ " " ++ p.2)
    refine ⟨(" -s " ++ p.1 ++ " " ++ p.2).data ++ r, ?_⟩
    show (fastSectClauses (init ++ " -s " ++ p.1 ++ " " ++ p.2) ps).data = _
    rw [hr]
    simp [String.data_append, List.append_assoc]

lemma fastSectClauses_contains (sects : List (String × String)) :
    ∀ (init : String) p, p ∈ sects → ∃ pre post,
      (fastSectClauses init sects).data = pre ++ ((" -s " ++ p.1 ++ " " ++ p.2).data ++ post) := by
  induction sects with
  | nil =>
    intro init p hp
    exact absurd hp (List.not_mem_nil p)
  | cons q qs ih =>
    intro init p hp
    rcases List.mem_cons.mp hp with h1 | h2
    · subst h1
      obtain ⟨r, hr⟩ := fastSectClauses_data qs (init ++ " -s " ++ p.1 ++ " " ++ p.2)
      refine ⟨init.data, r, ?_⟩
      show (fastSectClauses (init ++ " -s " ++ p.1 ++ " " ++ p.2) qs).data = _
      rw [hr]
      simp [String.data_append, List.append_assoc]
    · obtain ⟨pre, post, h⟩ := ih (init ++ " -s " ++ q.1 ++ " " ++ q.2) p h2
      exact ⟨pre, post, h⟩

lemma fastSectClauses_startsWith (init : String) (sects : List (String × String)) :
    init.data.isPrefixOf (fastSectClauses init sects).data = true := by
  obtain ⟨r, hr⟩ := fastSectClauses_data sects init
  rw [hr]
  exact isPrefixOf_self_append init.data r

lemma strHasSub_fastSectClauses (init : String) (sects : List (String × String))
    (p : String × String) (hp : p ∈ sects) :
    strHasSub (fastSectClauses init sects) (" -s " ++ p.1 ++ " " ++ p.2) = true := by
  obtain ⟨pre, post, h⟩ := fastSectClauses_contains sects init p hp
  unfold strHasSub
  rw [h]
  exact hasSub_of_append pre _ post

lemma addSectClausesAux_data (adict : List (String × String)) :
    ∀ secs (init : String), ∃ r, (addSectClausesAux adict secs init).data = init.data ++ r := by
  intro secs
  induction secs with
  | nil =>
    intro init
    exact ⟨[], by simp [addSectClausesAux]⟩
  | cons sec rest ih =>
    intro init
    cases hd : dictGet adict sec with
    | some addr =>
      obtain ⟨r, hr⟩ := ih (init ++ " -s " ++ sec ++ " " ++ addr)
      refine ⟨(" -s " ++ sec ++ " " ++ addr).data ++ r, ?_⟩
      simp only [addSectClausesAux, hd]
      rw [hr]
      simp [String.data_append, List.append_assoc]
    | none =>
      obtain ⟨r, hr⟩ := ih init
      refine ⟨r, ?_⟩
      simp only [addSectClausesAux, hd]
      exact hr

lemma addSectClausesAux_contains (adict : List (String × String)) :
    ∀ secs (init : String) sec addr, sec ∈ secs → dictGet adict sec = some addr →
      ∃ pre post, (addSectClausesAux adict secs init).data =
        pre ++ ((" -s " ++ sec ++ " " ++ addr).data ++ post) := by
  intro secs
  induction secs with
  | nil =>
    intro init sec addr h _
    exact absurd h (List.not_mem_nil _)
  | cons q rest ih =>
    intro init sec addr hmem hd
    rcases List.mem_cons.mp hmem with h1 | h2
    · subst h1
      simp only [addSectClausesAux, hd]
      obtain ⟨r, hr⟩ := addSectClausesAux_data adict rest (init ++ " -s " ++ sec ++ " " ++ addr)
      refine ⟨init.data, r, ?_⟩
      rw [hr]
      simp [String.data_append, List.append_assoc]
    · cases hd2 : dictGet adict q with
      | some a2 =>
        simp only [addSectClausesAux, hd2]
        exact ih (init ++ " -s " ++ q ++ " " ++ a2) sec addr h2 hd
      | none =>
        simp only [addSectClausesAux, hd2]
        exact ih init sec addr h2 hd

lemma addSectClauses_startsWith (init : String) (adict : List (String × String)) :
    init.data.isPrefixOf (addSectClauses init adict).data = true := by
  obtain ⟨r, hr⟩ := addSectClausesAux_data adict [".bss", ".data", ".init.text"] init
  unfold addSectClauses
  rw [hr]
  exact isPrefixOf_self_append init.data r

lemma strHasSub_addSectClauses (init : String) (adict : List (String × String))
    (sec addr : String) (hmem : sec ∈ [".bss", ".data", ".init.text"])
    (hd : dictGet adict sec = some addr) :
    strHasSub (addSectClauses init adict) (" -s " ++ sec ++ " " ++ addr) = true := by
  obtain ⟨pre, post, h⟩ :=
    addSectClausesAux_contains adict [".bss", ".data", ".init.text"] init sec addr hmem hd
  unfold strHasSub addSectClauses
  rw [h]
  exact hasSub_of_append pre _ post

/-- C3 as stated is false on add-kernel-modules: with a build artifact
found and discovered sections .text and .rodata, the issued command is the
bare add-symbol-file with no clause for the discovered section .rodata. -/
theorem C3_counterexample :
    AddAllModsCmd.processModule (fun _ => Except.ok ["./foo.ko"]) (fun _ => true)
      (fun _ => false) ⟨"foo", [(".text", "0x1000"), (".rodata", "0x2000")]⟩ =
      [Effect.gdbCmd "add-symbol-file ./foo.ko 0x1000"] ∧
    strHasSub "add-symbol-file ./foo.ko 0x1000" " -s .rodata 0x2000" = false := by
  constructor
  · decide
  · decide

/-- C3 (amended): in both module commands, when a build artifact is found
and the discovered sections include .text, the single issued command
begins with add-symbol-file, the path and the .text address; in the
network command it carries a clause for every discovered section
(including .text itself), while in add-kernel-modules it carries a clause
for exactly those of .bss, .data and .init.text that were discovered; with
no .text section or no build artifact no command is issued. -/
theorem C3_issued_command_structure (findRes : String → Except Unit (List String))
    (isFile : String → Bool) (execFails : String → Bool) (name textAddr : String)
    (sects : List (String × String)) (m : ModuleInfo) :
    (dictGet sects ".text" = some textAddr → findBuildPath (findRes name) ≠ "" →
      issuedCmds (AddAllModsCmdFast.processEntry findRes execFails (name, sects)) =
        [fastSectClauses
          ("add-symbol-file " ++ findBuildPath (findRes name) ++ " " ++ textAddr) sects] ∧
      ("add-symbol-file " ++ findBuildPath (findRes name) ++ " " ++ textAddr).data.isPrefixOf
        (fastSectClauses ("add-symbol-file " ++ findBuildPath (findRes name) ++ " " ++ textAddr)
          sects).data = true ∧
      ∀ p ∈ sects,
        strHasSub (fastSectClauses
            ("add-symbol-file " ++ findBuildPath (findRes name) ++ " " ++ textAddr) sects)
          (" -s " ++ p.1 ++ " " ++ p.2) = true) ∧
    (dictGet sects ".text" = none →
      issuedCmds (AddAllModsCmdFast.processEntry findRes execFails (name, sects)) = []) ∧
    (findBuildPath (findRes name) = "" →
      issuedCmds (AddAllModsCmdFast.processEntry findRes execFails (name, sects)) = []) ∧
    (dictGet m.sections ".text" = some textAddr →
        isFile (findBuildPath (findRes m.name)) = true →
      issuedCmds (AddAllModsCmd.processModule findRes isFile execFails m) =
        [addSectClauses
          ("add-symbol-file " ++ findBuildPath (findRes m.name) ++ " " ++ textAddr)
          m.sections] ∧
      ("add-symbol-file " ++ findBuildPath (findRes m.name) ++ " " ++ textAddr).data.isPrefixOf
        (addSectClauses ("add-symbol-file " ++ findBuildPath (findRes m.name) ++ " " ++ textAddr)
          m.sections).data = true ∧
      ∀ sec addr, sec ∈ [".bss", ".data", ".init.text"] → dictGet m.sections sec = some addr →
        strHasSub (addSectClauses
            ("add-symbol-file " ++ findBuildPath (findRes m.name) ++ " " ++ textAddr) m.sections)
          (" -s " ++ sec ++ " " ++ addr) = true) ∧
    (isFile (findBuildPath (findRes m.name)) = false →
      issuedCmds (AddAllModsCmd.processModule findRes isFile execFails m) = []) ∧
    (dictGet m.sections ".text" = none →
      isFile (findBuildPath (findRes m.name)) = true →
      issuedCmds (AddAllModsCmd.processModule findRes isFile execFails m) = []) := by
  refine ⟨?_, ?_, ?_, ?_, ?_, ?_⟩
  · intro ht hn
    refine ⟨?_, fastSectClauses_startsWith _ sects, fun p hp => strHasSub_fastSectClauses _ sects p hp⟩
    cases hE : execFails (fastSectClauses
        ("add-symbol-file " ++ findBuildPath (findRes name) ++ " " ++ textAddr) sects) <;>
      simp [AddAllModsCmdFast.processEntry, issuedCmds, hn, ht, hE]
  · intro ht
    cases hn : decide (findBuildPath (findRes name) = "") <;>
      simp_all [AddAllModsCmdFast.processEntry, issuedCmds]
  · intro hn
    simp [AddAllModsCmdFast.processEntry, issuedCmds, hn]
  · intro ht hf
    refine ⟨?_, addSectClauses_startsWith _ m.sections,
      fun sec addr hmem hd => strHasSub_addSectClauses _ m.sections sec addr hmem hd⟩
    cases hE : execFails (addSectClauses
        ("add-symbol-file " ++ findBuildPath (findRes m.name) ++ " " ++ textAddr) m.sections) <;>
      simp [AddAllModsCmd.processModule, issuedCmds, hf, ht, hE]
  · intro hf
    simp [AddAllModsCmd.processModule, issuedCmds, hf]
  · intro ht hf
    simp [AddAllModsCmd.processModule, issuedCmds, hf, ht]

theorem C3_witness :
    issuedCmds (AddAllModsCmdFast.processEntry (fun _ => Except.ok ["./foo.ko"])
      (fun _ => false) ("foo", [(".text", "0x1"), (".rodata", "0x2")])) =
      ["add-symbol-file ./foo.ko 0x1 -s .text 0x1 -s .rodata 0x2"] ∧
    strHasSub "add-symbol-file ./foo.ko 0x1 -s .text 0x1 -s .rodata 0x2" " -s .rodata 0x2" =
      true ∧
    issuedCmds (AddAllModsCmd.processModule (fun _ => Except.ok ["./bar.ko"]) (fun _ => true)
      (fun _ => false) ⟨"bar", [(".text", "0x3"), (".data", "0x4")]⟩) =
      ["add-symbol-file ./bar.ko 0x3 -s .data 0x4"] := by
  have h1 := (C3_issued_command_structure (fun _ => Except.ok ["./foo.ko"]) (fun _ => true)
    (fun _ => false) "foo" "0x1" [(".text", "0x1"), (".rodata", "0x2")]
    ⟨"bar", [(".text", "0x3"), (".data", "0x4")]⟩).1 (by decide) (by decide)
  have h2 := (C3_issued_command_structure (fun _ => Except.ok ["./bar.ko"]) (fun _ => true)
    (fun _ => false) "foo" "0x3" [(".text", "0x1"), (".rodata", "0x2")]
    ⟨"bar", [(".text", "0x3"), (".data", "0x4")]⟩).2.2.2.1 (by decide) (by decide)
  refine ⟨?_, by decide, ?_⟩
  · rw [h1.1]
    decide
  · rw [h2.1]
    decide

end Vmlinux
